import Mathlib

/-!
Shallow embedding of `src/scripts/menu.py` (class `GoogleSheetsMenuParser`).

The Python module resolves calendar dates to month-named worksheet tabs of a
spreadsheet, and extracts lunch/dinner menu text from each tab's cell grid.
The external collaborator (gspread / Google Sheets) is modelled by an `Env`
record: which tabs exist, and what `get_all_values()` returns for each tab
(a grid, or an error standing for any raised exception).  Side effects that
the claims talk about (grid fetches, printed error reports) are modelled as
an explicit event trace returned alongside each result.

String scanning is modelled on the character lists of Lean strings
(`String.data`) so that every definition evaluates inside the kernel; each
helper states which Python string operation it translates.
-/

namespace MenuSpec

/-- A calendar date as carried by a Python `datetime`: year, month, day.
Only dates that `datetime` itself accepts (month 1-12, day 1-31, day and
month below 100) are meaningful inputs. -/
structure Date where
  year : Nat
  month : Nat
  day : Nat
deriving DecidableEq, Repr

/-- A worksheet grid: `worksheet.get_all_values()` returns a list of rows of
cell strings, rows possibly of unequal length. -/
abbrev Grid := List (List String)

/-- The whitespace characters stripped by Python `str.strip` (the subset that
can occur in spreadsheet cell text). -/
def isSpaceChar (ch : Char) : Bool := ch == ' ' || ch == '\t' || ch == '\n' || ch == '\r'

/-- Python `str.strip`, modelled on the character list of a string. -/
def trimChars (l : List Char) : List Char :=
  ((l.dropWhile isSpaceChar).reverse.dropWhile isSpaceChar).reverse

/-- Python `str.split(sep)` with an explicit one-character separator: splits at
every occurrence and keeps empty pieces, so `"a  b".split(' ')` has three parts. -/
def splitChars (sep : Char) : List Char → List (List Char)
  | [] => [[]]
  | ch :: rest =>
    if ch == sep then [] :: splitChars sep rest
    else (ch :: (splitChars sep rest).headD []) :: (splitChars sep rest).tail

/-- Python `str.lower`, for the ASCII labels compared by the scanner. -/
def lowerChars (l : List Char) : List Char := l.map Char.toLower

/-- Zero-padded two-digit decimal rendering, as `strftime` produces for the
day and month fields (which are always below 100). -/
def pad2 (n : Nat) : String := String.mk [Char.ofNat (48 + (n / 10) % 10), Char.ofNat (48 + n % 10)]

/-- `target_date.strftime` with format day-slash-month (menu.py lines 126 and 180). -/
def dateStr (d : Date) : String := pad2 d.day ++ ("/") ++ pad2 d.month

/-- `target_date.strftime` with format year-month-day (menu.py line 179). -/
def dateKey (d : Date) : String := toString d.year ++ ("-") ++ pad2 d.month ++ ("-") ++ pad2 d.day

/-- The cell test shared by `date_exists_in_sheet` (menu.py lines 131-137) and the
extraction scan (lines 193-198): the cell is non-empty, contains a space,
stripping it and splitting on single spaces yields at least two parts, and the
last part equals the target date's day-slash-month key. -/
def cellMatches (cell key : String) : Bool :=
  !cell.data.isEmpty && cell.data.contains ' ' &&
    (decide (2 ≤ (splitChars ' ' (trimChars cell.data)).length) &&
      ((splitChars ' ' (trimChars cell.data)).getLastD [] == key.data))

/-- The pure core of `date_exists_in_sheet` (menu.py lines 128-138): scan every
cell of every row for a matching date cell. -/
def dateExistsGrid (g : Grid) (key : String) : Bool :=
  g.any (fun row => row.any (fun cell => cellMatches cell key))

/-- The extraction scan's row filter (menu.py line 188): the row has more than
one cell and its first cell is the empty string or whitespace only. -/
def headerCand (row : List String) : Bool :=
  decide (1 < row.length) &&
    ((row.headD ("")).data.isEmpty || (trimChars (row.headD ("")).data).isEmpty)

/-- The inner column loop of the extraction scan (menu.py lines 192-198,
`enumerate(row[1:], 1)`): return the index of the first cell, scanning left to
right from start index `c`, that matches the key. -/
def findCol (key : String) : List String → Nat → Option Nat
  | [], _ => none
  | cell :: rest, c => if cellMatches cell key then some c else findCol key rest (c + 1)

/-- The outer row loop of the extraction scan (menu.py lines 183-225): walk the
rows from index `i`; in each header-candidate row look for the first matching
column; stop at the first row that yields a match. -/
def scanRowsAux (key : String) : List (List String) → Nat → Option (Nat × Nat)
  | [], _ => none
  | row :: rest, i =>
    if headerCand row then
      match findCol key (row.drop 1) 1 with
      | some c => some (i, c)
      | none => scanRowsAux key rest (i + 1)
    else scanRowsAux key rest (i + 1)

/-- Position (row index, column index) of the cell at which the extraction scan
stops for the given key, if any. -/
def findMatch (g : Grid) (key : String) : Option (Nat × Nat) := scanRowsAux key g 0

/-- Reading one label row relative to the matched cell (menu.py lines 204-216):
row `r` must exist, be longer than the matched column `c`, and have its first
cell stripped and lowercased equal to the label; then its column-`c` cell,
stripped, is the text, otherwise the empty string. -/
def labelText (g : Grid) (r c : Nat) (lbl : String) : String :=
  if r < g.length then
    if decide (c < (g.getD r []).length) &&
        (lowerChars (trimChars ((g.getD r []).headD ("")).data) == lbl.data) then
      String.mk (trimChars ((g.getD r []).getD c ("")).data)
    else ""
  else ""

/-- The per-date extraction performed inside `get_menus_for_dates` (menu.py
lines 183-225): when the scan stops at `(i, c)` the date's entry is created
with the lunch text read from row `i+1` under the label `midi` and the dinner
text from row `i+2` under the label `soir`; when the scan finds no match, no
entry is created for the date (the `menus` dict is left without the key). -/
def extractGrid (g : Grid) (key : String) : Option (String × String) :=
  match findMatch g key with
  | none => none
  | some (i, c) => some (labelText g (i + 1) c ("midi"), labelText g (i + 2) c ("soir"))

/-- The month-number-to-tab-name dictionary (menu.py lines 63-67): unaccented
French month names; `none` models a `KeyError` for keys outside 1-12. -/
def month_names : Nat → Option String
  | 1 => some ("Janvier")
  | 2 => some ("Fevrier")
  | 3 => some ("Mars")
  | 4 => some ("Avril")
  | 5 => some ("Mai")
  | 6 => some ("Juin")
  | 7 => some ("Juillet")
  | 8 => some ("Aout")
  | 9 => some ("Septembre")
  | 10 => some ("Octobre")
  | 11 => some ("Novembre")
  | 12 => some ("Decembre")
  | _ => none

/-- Gregorian leap-year rule, as implemented by Python `datetime` arithmetic. -/
def isLeap (y : Nat) : Bool := (y % 4 == 0 && decide (y % 100 ≠ 0)) || y % 400 == 0

/-- Number of days in a month, the value menu.py lines 92-93 compute as
`(datetime(year, month+1, 1) - timedelta(days=1)).day`. -/
def daysInMonth (y m : Nat) : Nat :=
  if m = 2 then (if isLeap y then 29 else 28)
  else if m = 4 ∨ m = 6 ∨ m = 9 ∨ m = 11 then 30
  else 31

/-- The candidate month numbers built by `determine_sheet_for_date`
(menu.py lines 76-97): the target month, preceded by the previous month when
the day is at most 7, followed by the next month when the day is within the
last 7 days of the month; December's length is hardcoded to 31 and the
December/January boundary wraps in both directions. -/
def months_to_check (d : Date) : List Nat :=
  let target_month := d.month
  let withPrev : List Nat :=
    if d.day ≤ 7 then (if 1 < target_month then target_month - 1 else 12) :: [target_month]
    else [target_month]
  let days_in_month := if target_month = 12 then 31 else daysInMonth d.year target_month
  let next_month := if target_month = 12 then 1 else target_month + 1
  if days_in_month - 7 ≤ d.day then withPrev ++ [next_month] else withPrev

/-- The ordered tab names probed for a date (the names looked up at
menu.py line 101 for each entry of `months_to_check`). -/
def candidates (d : Date) : List String :=
  (months_to_check d).map (fun m => (month_names m).getD (""))

/-- One observable interaction with the external collaborator: a
`get_all_values` grid fetch of a tab, or an error report printed by the code. -/
inductive Ev where
  | fetch (tab : String) : Ev
  | errPrint (msg : String) : Ev
deriving DecidableEq, Repr

/-- Outcome of `setup_connection` (menu.py lines 25-54): success, missing
libraries, missing credentials file, or an exception while authenticating. -/
inductive Setup where
  | ok : Setup
  | noLibs : Setup
  | noCredFile (path : String) : Setup
  | authErr (msg : String) : Setup

/-- The external collaborator: whether `spreadsheet.worksheet(name)` succeeds
(`hasTab`), and what `worksheet.get_all_values()` returns for each tab
(`fetchTab`; an `error` stands for any raised exception). The same fixed
answers are observed throughout one `get_menus_for_dates` run. -/
structure Env where
  setup : Setup
  hasTab : String → Bool
  fetchTab : String → Except String Grid

/-- `setup_connection` (menu.py lines 25-54): returns whether the connection
was established, together with the error lines printed on failure. -/
def setup_connection : Setup → Bool × List Ev
  | Setup.ok => (true, [])
  | Setup.noLibs =>
      (false, [Ev.errPrint ("❌ Bibliothèques manquantes. Installez avec:"),
               Ev.errPrint ("pip3 install gspread google-auth --break-system-packages")])
  | Setup.noCredFile p => (false, [Ev.errPrint ("❌ Fichier de credentials non trouvé: " ++ p)])
  | Setup.authErr e => (false, [Ev.errPrint ("❌ Erreur connexion Google Sheets: " ++ e)])

/-- One candidate probe succeeds (menu.py lines 100-107): the tab exists, its
grid fetch does not raise, and `date_exists_in_sheet` finds the date in it. -/
def probeOk (env : Env) (d : Date) (m : Nat) : Bool :=
  env.hasTab ((month_names m).getD ("")) &&
    (match env.fetchTab ((month_names m).getD ("")) with
     | Except.ok g => dateExistsGrid g (dateStr d)
     | Except.error _ => false)

/-- The candidate loop of `determine_sheet_for_date` (menu.py lines 100-120):
probe each candidate month's tab in order; a missing tab (WorksheetNotFound)
is skipped without a grid fetch, a tab whose fetch raises is skipped after the
attempted fetch (the exception is swallowed by `date_exists_in_sheet`), and
the first tab in which the date exists is returned.  Exhaustion returns
`none`; the trailing tab-listing round trip (lines 114-118) performs no grid
fetch and does not affect the result, so it leaves no event here. -/
def probe (env : Env) (d : Date) : List Nat → Option String × List Ev
  | [] => (none, [])
  | m :: rest =>
    if env.hasTab ((month_names m).getD ("")) then
      match env.fetchTab ((month_names m).getD ("")) with
      | Except.error _ =>
        ((probe env d rest).1, Ev.fetch ((month_names m).getD ("")) :: (probe env d rest).2)
      | Except.ok g =>
        if dateExistsGrid g (dateStr d) then
          (some ((month_names m).getD ("")), [Ev.fetch ((month_names m).getD (""))])
        else
          ((probe env d rest).1, Ev.fetch ((month_names m).getD ("")) :: (probe env d rest).2)
    else probe env d rest

/-- `determine_sheet_for_date` (menu.py lines 56-120): probe the candidate
months of the date in order; the returned tab name stands for the returned
worksheet handle, `none` for Python's `None`. -/
def determine_sheet_for_date (env : Env) (d : Date) : Option String × List Ev :=
  probe env d (months_to_check d)

/-- Insertion into the `dates_by_worksheet` dict (menu.py lines 159-166):
append the date to the tab's group, creating the group at the end on first
sight of the tab (Python dicts preserve insertion order). -/
def addToGroups : List (String × List Date) → String → Date → List (String × List Date)
  | [], t, d => [(t, [d])]
  | (t', ds) :: rest, t, d =>
    if t' = t then (t', ds ++ [d]) :: rest
    else (t', ds) :: addToGroups rest t d

/-- The first loop of `get_menus_for_dates` (menu.py lines 152-166): resolve
each target date to a tab (collecting the probes' fetch events) and group the
resolved dates by tab title; unresolved dates are dropped. -/
def resolvePhase (env : Env) : List Date → List (String × List Date) → List (String × List Date) × List Ev
  | [], acc => (acc, [])
  | d :: rest, acc =>
    match (determine_sheet_for_date env d).1 with
    | none =>
      ((resolvePhase env rest acc).1,
        (determine_sheet_for_date env d).2 ++ (resolvePhase env rest acc).2)
    | some t =>
      ((resolvePhase env rest (addToGroups acc t d)).1,
        (determine_sheet_for_date env d).2 ++ (resolvePhase env rest (addToGroups acc t d)).2)

/-- Processing of one tab group in the second loop of `get_menus_for_dates`
(menu.py lines 169-228): fetch the tab's grid once; on an exception print one
error line and produce no entries for the group's dates; otherwise run the
extraction scan for each date of the group, keeping the dates whose scan
found a match. -/
def processGroup (env : Env) (t : String) (ds : List Date) : List (String × String × String) × List Ev :=
  match env.fetchTab t with
  | Except.error e =>
    ([], [Ev.fetch t, Ev.errPrint ("❌ Erreur récupération données pour l'onglet " ++ t ++ (": ") ++ e)])
  | Except.ok g =>
    (ds.filterMap (fun d => (extractGrid g (dateStr d)).map (fun p => (dateKey d, p.1, p.2))),
     [Ev.fetch t])

/-- The second loop of `get_menus_for_dates` (menu.py lines 169-228), over the
tab groups in insertion order. -/
def extractPhase (env : Env) : List (String × List Date) → List (String × String × String) × List Ev
  | [] => ([], [])
  | (t, ds) :: rest =>
    ((processGroup env t ds).1 ++ (extractPhase env rest).1,
     (processGroup env t ds).2 ++ (extractPhase env rest).2)

/-- `get_menus_for_dates` (menu.py lines 142-230): the `menus` dict is modelled
as the insertion-ordered association list of (date key, (midi, soir)) entries,
paired with the trace of collaborator fetches and printed error reports. -/
def get_menus_for_dates (env : Env) (dates : List Date) : List (String × String × String) × List Ev :=
  if (setup_connection env.setup).1 then
    ((extractPhase env (resolvePhase env dates []).1).1,
     (setup_connection env.setup).2 ++ (resolvePhase env dates []).2
       ++ (extractPhase env (resolvePhase env dates []).1).2)
  else ([], (setup_connection env.setup).2)

/-- Number of `get_all_values` calls on tab `t` recorded in a trace. -/
def isFetchOf (t : String) : Ev → Bool
  | Ev.fetch t' => t' == t
  | Ev.errPrint _ => false

/-- Count of grid fetches of tab `t` in an event trace. -/
def fetchCount (evs : List Ev) (t : String) : Nat := evs.countP (isFetchOf t)

/-- Spec-side description of a position the extraction scan can match: the row
exists and is a header candidate, the column is at least 1, inside the row,
and its cell matches the key. -/
def matchPos (g : Grid) (key : String) (i c : Nat) : Prop :=
  i < g.length ∧ headerCand (g.getD i []) = true ∧ 1 ≤ c ∧ c < (g.getD i []).length ∧
    cellMatches ((g.getD i []).getD c ("")) key = true

/-- Spec-side reading of a label row, following the specification's wording: a
label row is valid only if the row at the stated offset exists, has a cell at
the matched column, and its first cell, trimmed and lowercased, equals the
label; mismatched or missing offsets yield the empty string. -/
def labelSpec (g : Grid) (r c : Nat) (lbl : String) : String :=
  if r < g.length then
    if c < (g.getD r []).length then
      if lowerChars (trimChars ((g.getD r []).headD ("")).data) == lbl.data then
        String.mk (trimChars ((g.getD r []).getD c ("")).data)
      else ""
    else ""
  else ""

/-- Concrete collaborator for the C1 analysis: one tab Mars holding two dated
columns, probed by two target dates. -/
def envC1 : Env :=
  ⟨Setup.ok, fun t => t == "Mars",
   fun t => if t == "Mars" then
       Except.ok [["", "lundi 10/03", "mardi 11/03"], ["Midi", "Pates", "Riz"],
         ["Soir", "Soupe", "Salade"]]
     else Except.error ("absent")⟩

/-- Concrete collaborator for the C2 analysis: one tab Mars whose grid holds a
date cell in column 0 only, so the date resolves but extraction cannot match. -/
def envC2 : Env :=
  ⟨Setup.ok, fun t => t == "Mars",
   fun t => if t == "Mars" then Except.ok [["lundi 10/03"]] else Except.error ("absent")⟩

/-- Concrete collaborator for the C3 witness: authentication fails with an
exception message. -/
def envAuth : Env :=
  ⟨Setup.authErr ("invalid_grant"), fun _ => false, fun _ => Except.error ("down")⟩

/-! ## Helper lemmas -/

/-- The candidate loop returns exactly the first candidate whose probe
succeeds: the result of `probe` is `List.find?` of `probeOk` over the month
list, mapped to its tab name. -/
lemma probe_eq_find (env : Env) (d : Date) (ms : List Nat) :
    (probe env d ms).1 = (ms.find? (probeOk env d)).map (fun m => (month_names m).getD ("")) := by
  induction ms with
  | nil => rfl
  | cons m rest ih =>
    by_cases hT : env.hasTab ((month_names m).getD ("")) = true
    · cases hF : env.fetchTab ((month_names m).getD ("")) with
      | error e =>
        have hp : probeOk env d m = false := by simp [probeOk, hT, hF]
        simp [probe, hT, hF, List.find?, hp, ih]
      | ok g =>
        by_cases hE : dateExistsGrid g (dateStr d) = true
        · have hp : probeOk env d m = true := by simp [probeOk, hT, hF, hE]
          simp [probe, hT, hF, hE, List.find?, hp]
        · have hp : probeOk env d m = false := by
            simp only [Bool.not_eq_true] at hE
            simp [probeOk, hT, hF, hE]
          simp only [Bool.not_eq_true] at hE
          simp [probe, hT, hF, hE, List.find?, hp, ih]
    · have hp : probeOk env d m = false := by
        simp only [Bool.not_eq_true] at hT
        simp [probeOk, hT]
      simp only [Bool.not_eq_true] at hT
      simp [probe, hT, List.find?, hp, ih]

/-- Every month has at least 28 days. -/
lemma daysInMonth_ge (y m : Nat) : 28 ≤ daysInMonth y m := by
  unfold daysInMonth
  split
  · split <;> omega
  · split <;> omega

/-- Structure of the candidate month list for an early-month date: with day at
most 7 the list is exactly previous month then target month. -/
lemma months_early (d : Date) (h7 : d.day ≤ 7) :
    months_to_check d = [(if 1 < d.month then d.month - 1 else 12), d.month] := by
  have hge : 28 ≤ (if d.month = 12 then 31 else daysInMonth d.year d.month) := by
    split
    · omega
    · exact daysInMonth_ge d.year d.month
  unfold months_to_check
  simp only
  rw [if_pos h7, if_neg (by omega)]

/-- The target month is always a member of its candidate month list. -/
lemma target_mem_months (d : Date) : d.month ∈ months_to_check d := by
  unfold months_to_check
  simp only
  split_ifs <;> simp

/-- The candidate month list has between one and three entries. -/
lemma months_length (d : Date) :
    1 ≤ (months_to_check d).length ∧ (months_to_check d).length ≤ 3 := by
  unfold months_to_check
  simp only
  split_ifs <;> simp

/-- Indexing after dropping the first cell of a row. -/
lemma getD_drop_one (row : List String) (j : Nat) :
    (row.drop 1).getD j ("") = row.getD (j + 1) ("") := by
  cases row <;> simp [List.getD]

/-- What a successful inner column loop means: the returned index is the offset
of the first matching cell at or after the start index. -/
lemma findCol_some (key : String) : ∀ (cells : List String) (c0 c : Nat),
    findCol key cells c0 = some c →
    ∃ j, c = c0 + j ∧ j < cells.length ∧ cellMatches (cells.getD j ("")) key = true ∧
      ∀ j', j' < j → cellMatches (cells.getD j' ("")) key = false := by
  intro cells
  induction cells with
  | nil => intro c0 c h; simp [findCol] at h
  | cons cell rest ih =>
    intro c0 c h
    by_cases hm : cellMatches cell key = true
    · simp [findCol, hm] at h
      exact ⟨0, by omega, by simp, by simpa using hm, fun j' hj' => absurd hj' (by omega)⟩
    · rw [Bool.not_eq_true] at hm
      simp [findCol, hm] at h
      obtain ⟨j, hcj, hjlen, hmatch, hmin⟩ := ih (c0 + 1) c h
      refine ⟨j + 1, by omega, by simp only [List.length_cons]; omega, by simpa using hmatch, ?_⟩
      intro j' hj'
      cases j' with
      | zero => simpa using hm
      | succ j'' =>
        have : j'' < j := by omega
        simpa using hmin j'' this

/-- What a failed inner column loop means: no cell matches. -/
lemma findCol_none (key : String) : ∀ (cells : List String) (c0 : Nat),
    findCol key cells c0 = none →
    ∀ j, j < cells.length → cellMatches (cells.getD j ("")) key = false := by
  intro cells
  induction cells with
  | nil => intro c0 _ j hj; simp at hj
  | cons cell rest ih =>
    intro c0 h j hj
    by_cases hm : cellMatches cell key = true
    · simp [findCol, hm] at h
    · rw [Bool.not_eq_true] at hm
      simp [findCol, hm] at h
      cases j with
      | zero => simpa using hm
      | succ j' =>
        have hj' : j' < rest.length := by simp only [List.length_cons] at hj; omega
        simpa using ih (c0 + 1) h j' hj'

/-- What a successful outer row loop means: the returned row index holds the
first header-candidate row, at or after the start index, whose column scan
succeeds, and it does so at the returned column. -/
lemma scanRows_some (key : String) : ∀ (rows : List (List String)) (i0 i c : Nat),
    scanRowsAux key rows i0 = some (i, c) →
    i0 ≤ i ∧ (i - i0) < rows.length ∧ headerCand (rows.getD (i - i0) []) = true ∧
      findCol key ((rows.getD (i - i0) []).drop 1) 1 = some c ∧
      ∀ k, k < i - i0 → headerCand (rows.getD k []) = true →
        findCol key ((rows.getD k []).drop 1) 1 = none := by
  intro rows
  induction rows with
  | nil => intro i0 i c h; simp [scanRowsAux] at h
  | cons row rest ih =>
    intro i0 i c h
    by_cases hH : headerCand row = true
    · cases hF : findCol key (row.drop 1) 1 with
      | some c0 =>
        rw [List.drop_one] at hF
        simp [scanRowsAux, hH, hF] at h
        obtain ⟨hi, hc⟩ := h
        subst hi
        subst hc
        refine ⟨le_refl i0, by simp, by simpa using hH, by simpa using hF, ?_⟩
        intro k hk
        exact absurd hk (by omega)
      | none =>
        rw [List.drop_one] at hF
        simp [scanRowsAux, hH, hF] at h
        obtain ⟨h1, h2, h3, h4, h5⟩ := ih (i0 + 1) i c h
        have hij : i - i0 = (i - (i0 + 1)) + 1 := by omega
        refine ⟨by omega, by rw [hij]; simp only [List.length_cons]; omega,
          by rw [hij]; simpa using h3, by rw [hij]; simpa using h4, ?_⟩
        intro k hk hcand
        cases k with
        | zero => simpa using hF
        | succ k' =>
          have hk' : k' < i - (i0 + 1) := by omega
          have := h5 k' hk' (by simpa using hcand)
          simpa using this
    · rw [Bool.not_eq_true] at hH
      simp [scanRowsAux, hH] at h
      obtain ⟨h1, h2, h3, h4, h5⟩ := ih (i0 + 1) i c h
      have hij : i - i0 = (i - (i0 + 1)) + 1 := by omega
      refine ⟨by omega, by rw [hij]; simp only [List.length_cons]; omega,
        by rw [hij]; simpa using h3, by rw [hij]; simpa using h4, ?_⟩
      intro k hk hcand
      cases k with
      | zero =>
        rw [List.getD_cons_zero] at hcand
        exact absurd hcand (by simp [hH])
      | succ k' =>
        have hk' : k' < i - (i0 + 1) := by omega
        have := h5 k' hk' (by simpa using hcand)
        simpa using this

/-- What a failed outer row loop means: no header-candidate row has a matching
column. -/
lemma scanRows_none (key : String) : ∀ (rows : List (List String)) (i0 : Nat),
    scanRowsAux key rows i0 = none →
    ∀ k, k < rows.length → headerCand (rows.getD k []) = true →
      findCol key ((rows.getD k []).drop 1) 1 = none := by
  intro rows
  induction rows with
  | nil => intro i0 _ k hk; simp at hk
  | cons row rest ih =>
    intro i0 h k hk hcand
    by_cases hH : headerCand row = true
    · cases hF : findCol key (row.drop 1) 1 with
      | some c0 =>
        rw [List.drop_one] at hF
        simp [scanRowsAux, hH, hF] at h
      | none =>
        rw [List.drop_one] at hF
        simp [scanRowsAux, hH, hF] at h
        cases k with
        | zero => rw [List.drop_one]; simpa using hF
        | succ k' =>
          have hk' : k' < rest.length := by simp only [List.length_cons] at hk; omega
          simpa using ih (i0 + 1) h k' hk' (by simpa using hcand)
    · rw [Bool.not_eq_true] at hH
      simp [scanRowsAux, hH] at h
      cases k with
      | zero =>
        rw [List.getD_cons_zero] at hcand
        exact absurd hcand (by simp [hH])
      | succ k' =>
        have hk' : k' < rest.length := by simp only [List.length_cons] at hk; omega
        simpa using ih (i0 + 1) h k' hk' (by simpa using hcand)

/-- A successful extraction scan stops at a genuine match position. -/
lemma findMatch_sound (g : Grid) (key : String) (i c : Nat)
    (h : findMatch g key = some (i, c)) : matchPos g key i c := by
  obtain ⟨-, h2, h3, h4, -⟩ := scanRows_some key g 0 i c h
  rw [Nat.sub_zero] at h2 h3 h4
  obtain ⟨j, hcj, hjlen, hmatch, -⟩ := findCol_some key _ 1 c h4
  rw [List.length_drop] at hjlen
  refine ⟨h2, h3, by omega, by omega, ?_⟩
  rw [getD_drop_one] at hmatch
  have : j + 1 = c := by omega
  rwa [this] at hmatch

/-- The extraction scan stops at the lexicographically first match position:
any other match position is in a later row, or in the same row at the same or
a later column. -/
lemma findMatch_min (g : Grid) (key : String) (i c : Nat)
    (h : findMatch g key = some (i, c)) :
    ∀ i' c', matchPos g key i' c' → i < i' ∨ (i = i' ∧ c ≤ c') := by
  intro i' c' hpos
  obtain ⟨hlen', hcand', hc1', hclen', hcell'⟩ := hpos
  obtain ⟨-, h2, h3, h4, h5⟩ := scanRows_some key g 0 i c h
  rw [Nat.sub_zero] at h2 h3 h4
  rcases Nat.lt_trichotomy i' i with hlt | heq | hgt
  · exfalso
    have hnone := h5 i' (by omega) hcand'
    have hfalse := findCol_none key _ 1 hnone (c' - 1)
      (by rw [List.length_drop]; omega)
    rw [getD_drop_one] at hfalse
    have : c' - 1 + 1 = c' := by omega
    rw [this] at hfalse
    rw [hcell'] at hfalse
    exact Bool.true_eq_false.mp hfalse
  · subst heq
    right
    refine ⟨rfl, ?_⟩
    by_contra hcc
    push_neg at hcc
    obtain ⟨j, hcj, hjlen, hmatch, hmin⟩ := findCol_some key _ 1 c h4
    have hfalse := hmin (c' - 1) (by omega)
    rw [getD_drop_one] at hfalse
    have : c' - 1 + 1 = c' := by omega
    rw [this] at hfalse
    rw [hcell'] at hfalse
    exact Bool.true_eq_false.mp hfalse
  · exact Or.inl hgt

/-- If the extraction scan finds no match, there is no match position. -/
lemma findMatch_none (g : Grid) (key : String)
    (h : findMatch g key = none) : ∀ i c, ¬ matchPos g key i c := by
  intro i c hpos
  obtain ⟨hlen, hcand, hc1, hclen, hcell⟩ := hpos
  have hnone := scanRows_none key g 0 h i hlen hcand
  have hfalse := findCol_none key _ 1 hnone (c - 1) (by rw [List.length_drop]; omega)
  rw [getD_drop_one] at hfalse
  have : c - 1 + 1 = c := by omega
  rw [this] at hfalse
  rw [hcell] at hfalse
  exact Bool.true_eq_false.mp hfalse

/-- The label reading implemented by the code agrees with the specification's
description of a valid label row. -/
lemma labelText_eq_labelSpec (g : Grid) (r c : Nat) (lbl : String) :
    labelText g r c lbl = labelSpec g r c lbl := by
  unfold labelText labelSpec
  by_cases hr : r < g.length
  · rw [if_pos hr, if_pos hr]
    by_cases hc : c < (g.getD r []).length
    · rw [if_pos hc, decide_eq_true hc, Bool.true_and]
    · rw [if_neg hc, decide_eq_false hc, Bool.false_and]
      simp only [Bool.false_eq_true, if_false]
  · rw [if_neg hr, if_neg hr]

/-- Any match position witnesses the existence check: the matching cell is a
cell of the grid, so `date_exists_in_sheet`'s scan finds one. -/
lemma matchPos_dateExists (g : Grid) (key : String) (i c : Nat)
    (h : matchPos g key i c) : dateExistsGrid g key = true := by
  obtain ⟨hlen, -, -, hclen, hcell⟩ := h
  unfold dateExistsGrid
  rw [List.any_eq_true]
  refine ⟨g.getD i [], ?_, ?_⟩
  · rw [List.getD_eq_getElem _ _ hlen]
    exact List.getElem_mem hlen
  · rw [List.any_eq_true]
    refine ⟨(g.getD i []).getD c (""), ?_, hcell⟩
    rw [List.getD_eq_getElem _ _ hclen]
    exact List.getElem_mem hclen

/-- Keys after a dict insertion: unchanged when the tab is already a key,
otherwise the tab is appended as a new key. -/
lemma keys_addToGroups (acc : List (String × List Date)) (t : String) (d : Date) :
    (addToGroups acc t d).map Prod.fst =
      if t ∈ acc.map Prod.fst then acc.map Prod.fst else acc.map Prod.fst ++ [t] := by
  induction acc with
  | nil => simp [addToGroups]
  | cons p rest ih =>
    obtain ⟨t', ds⟩ := p
    by_cases ht : t' = t
    · subst ht
      simp [addToGroups]
    · simp only [addToGroups, if_neg ht, List.map_cons]
      rw [ih]
      by_cases hm : t ∈ rest.map Prod.fst
      · rw [if_pos hm, if_pos (by simp [hm])]
      · have hnot : ¬ t ∈ t' :: rest.map Prod.fst := by
          simp only [List.mem_cons]
          push_neg
          exact ⟨fun he => ht he.symm, hm⟩
        rw [if_neg hm, if_neg hnot]
        simp

/-- Dict insertion preserves distinctness of the keys. -/
lemma nodup_keys_addToGroups (acc : List (String × List Date)) (t : String) (d : Date)
    (h : (acc.map Prod.fst).Nodup) : ((addToGroups acc t d).map Prod.fst).Nodup := by
  rw [keys_addToGroups]
  by_cases hm : t ∈ acc.map Prod.fst
  · rwa [if_pos hm]
  · rw [if_neg hm]
    rw [List.nodup_append]
    exact ⟨h, List.nodup_singleton t, by simpa using hm⟩

/-- The resolution phase produces groups with pairwise distinct tab keys. -/
lemma nodup_keys_resolve (env : Env) : ∀ (dates : List Date) (acc : List (String × List Date)),
    (acc.map Prod.fst).Nodup → (((resolvePhase env dates acc).1).map Prod.fst).Nodup := by
  intro dates
  induction dates with
  | nil => intro acc h; exact h
  | cons d rest ih =>
    intro acc h
    cases hdet : (determine_sheet_for_date env d).1 with
    | none =>
      simp only [resolvePhase, hdet]
      exact ih acc h
    | some t =>
      simp only [resolvePhase, hdet]
      exact ih _ (nodup_keys_addToGroups acc t d h)

/-- Fetch counts add up over concatenated traces. -/
lemma fetchCount_append (a b : List Ev) (t : String) :
    fetchCount (a ++ b) t = fetchCount a t + fetchCount b t := by
  simp [fetchCount, List.countP_append]

/-- Processing one tab group fetches that group's tab exactly once (also when
the fetch errors) and fetches no other tab. -/
lemma fetchCount_processGroup (env : Env) (t0 : String) (ds : List Date) (t : String) :
    fetchCount (processGroup env t0 ds).2 t = if t0 = t then 1 else 0 := by
  by_cases h : t0 = t
  · subst h
    unfold processGroup
    cases env.fetchTab t0 <;>
      simp [fetchCount, isFetchOf, List.countP_cons, List.countP_nil]
  · unfold processGroup
    cases env.fetchTab t0 <;>
      simp [fetchCount, isFetchOf, List.countP_cons, List.countP_nil, h]

/-- Over groups with distinct tab keys, the extraction phase fetches each
group's tab exactly once and never touches other tabs. -/
lemma fetchCount_extractPhase (env : Env) : ∀ (groups : List (String × List Date)) (t : String),
    (groups.map Prod.fst).Nodup →
    fetchCount (extractPhase env groups).2 t = if t ∈ groups.map Prod.fst then 1 else 0 := by
  intro groups
  induction groups with
  | nil => intro t _; simp [extractPhase, fetchCount]
  | cons p rest ih =>
    intro t hnd
    obtain ⟨t0, ds⟩ := p
    simp only [List.map_cons, List.nodup_cons] at hnd
    obtain ⟨hnotin, hnd'⟩ := hnd
    simp only [extractPhase]
    rw [fetchCount_append, fetchCount_processGroup, ih t hnd']
    by_cases h : t0 = t
    · subst h
      rw [if_pos rfl, if_neg hnotin, if_pos (by simp)]
    · by_cases hm : t ∈ rest.map Prod.fst
      · rw [if_neg h, if_pos hm, if_pos (by simp [hm])]
      · have hnot : ¬ t ∈ t0 :: rest.map Prod.fst := by
          simp only [List.mem_cons]
          push_neg
          exact ⟨fun he => h he.symm, hm⟩
        rw [if_neg h, if_neg hm]
        simp only [List.map_cons]
        rw [if_neg hnot]

/-- Unpacking a dict insertion: a date found in some group after the insertion
was already in that tab's group, or is the inserted date under the inserted
tab. -/
lemma mem_addToGroups_elim : ∀ (acc : List (String × List Date)) (t : String) (d : Date)
    (t' : String) (ds' : List Date) (d' : Date),
    (t', ds') ∈ addToGroups acc t d → d' ∈ ds' →
    (∃ ds0, (t', ds0) ∈ acc ∧ d' ∈ ds0) ∨ (t' = t ∧ d' = d) := by
  intro acc
  induction acc with
  | nil =>
    intro t d t' ds' d' hmem hd
    simp only [addToGroups, List.mem_singleton] at hmem
    have h1 : t' = t := congrArg Prod.fst hmem
    have h2 : ds' = [d] := congrArg Prod.snd hmem
    rw [h2] at hd
    exact Or.inr ⟨h1, List.mem_singleton.mp hd⟩
  | cons p rest ih =>
    intro t d t' ds' d' hmem hd
    obtain ⟨ta, dsa⟩ := p
    by_cases ht : ta = t
    · subst ht
      simp only [addToGroups, if_pos rfl] at hmem
      rcases List.mem_cons.mp hmem with heq | hrest
      · have h1 : t' = ta := congrArg Prod.fst heq
        have h2 : ds' = dsa ++ [d] := congrArg Prod.snd heq
        rw [h2] at hd
        rcases List.mem_append.mp hd with hl | hr
        · refine Or.inl ⟨dsa, ?_, hl⟩
          rw [h1]
          exact List.mem_cons_self _ _
        · exact Or.inr ⟨h1, List.mem_singleton.mp hr⟩
      · exact Or.inl ⟨ds', List.mem_cons_of_mem _ hrest, hd⟩
    · simp only [addToGroups, if_neg ht] at hmem
      rcases List.mem_cons.mp hmem with heq | hrest
      · refine Or.inl ⟨ds', ?_, hd⟩
        rw [heq]
        exact List.mem_cons_self _ _
      · rcases ih t d t' ds' d' hrest hd with ⟨ds0, hm0, hd0⟩ | hr
        · exact Or.inl ⟨ds0, List.mem_cons_of_mem _ hm0, hd0⟩
        · exact Or.inr hr

/-- The inserted date is present in the inserted tab's group. -/
lemma mem_addToGroups_self : ∀ (acc : List (String × List Date)) (t : String) (d : Date),
    ∃ ds, (t, ds) ∈ addToGroups acc t d ∧ d ∈ ds := by
  intro acc
  induction acc with
  | nil => intro t d; exact ⟨[d], by simp [addToGroups], by simp⟩
  | cons p rest ih =>
    intro t d
    obtain ⟨ta, dsa⟩ := p
    by_cases ht : ta = t
    · subst ht
      have hunf : addToGroups ((ta, dsa) :: rest) ta d = (ta, dsa ++ [d]) :: rest := by
        simp [addToGroups]
      rw [hunf]
      exact ⟨dsa ++ [d], List.mem_cons_self _ _, by simp⟩
    · have hunf : addToGroups ((ta, dsa) :: rest) t d = (ta, dsa) :: addToGroups rest t d := by
        simp [addToGroups, ht]
      rw [hunf]
      obtain ⟨ds, hmem, hd⟩ := ih t d
      exact ⟨ds, List.mem_cons_of_mem _ hmem, hd⟩

/-- Dates already grouped stay grouped across an insertion (the group may have
grown by the inserted date). -/
lemma mem_addToGroups_mono : ∀ (acc : List (String × List Date)) (t : String) (d : Date)
    (t' : String) (ds0 : List Date) (d' : Date),
    (t', ds0) ∈ acc → d' ∈ ds0 →
    ∃ ds, (t', ds) ∈ addToGroups acc t d ∧ d' ∈ ds := by
  intro acc
  induction acc with
  | nil => intro t d t' ds0 d' hmem _; simp at hmem
  | cons p rest ih =>
    intro t d t' ds0 d' hmem hd
    obtain ⟨ta, dsa⟩ := p
    by_cases ht : ta = t
    · subst ht
      have hunf : addToGroups ((ta, dsa) :: rest) ta d = (ta, dsa ++ [d]) :: rest := by
        simp [addToGroups]
      rw [hunf]
      rcases List.mem_cons.mp hmem with heq | hrest
      · have h1 : t' = ta := congrArg Prod.fst heq
        have h2 : ds0 = dsa := congrArg Prod.snd heq
        subst h1
        exact ⟨dsa ++ [d], List.mem_cons_self _ _, List.mem_append_left _ (h2 ▸ hd)⟩
      · exact ⟨ds0, List.mem_cons_of_mem _ hrest, hd⟩
    · have hunf : addToGroups ((ta, dsa) :: rest) t d = (ta, dsa) :: addToGroups rest t d := by
        simp [addToGroups, ht]
      rw [hunf]
      rcases List.mem_cons.mp hmem with heq | hrest
      · refine ⟨ds0, ?_, hd⟩
        rw [heq]
        exact List.mem_cons_self _ _
      · obtain ⟨ds, hmem', hd'⟩ := ih t d t' ds0 d' hrest hd
        exact ⟨ds, List.mem_cons_of_mem _ hmem', hd'⟩

/-- Every date found in a group of the resolution phase was already grouped in
the starting accumulator, or is a processed date that resolved to that tab. -/
lemma resolvePhase_sound (env : Env) : ∀ (dates : List Date) (acc : List (String × List Date))
    (t : String) (ds : List Date) (d' : Date),
    (t, ds) ∈ (resolvePhase env dates acc).1 → d' ∈ ds →
    (∃ ds0, (t, ds0) ∈ acc ∧ d' ∈ ds0) ∨
      (d' ∈ dates ∧ (determine_sheet_for_date env d').1 = some t) := by
  intro dates
  induction dates with
  | nil =>
    intro acc t ds d' hmem hd
    exact Or.inl ⟨ds, hmem, hd⟩
  | cons d rest ih =>
    intro acc t ds d' hmem hd
    cases hdet : (determine_sheet_for_date env d).1 with
    | none =>
      simp only [resolvePhase, hdet] at hmem
      rcases ih acc t ds d' hmem hd with hl | ⟨hin, hdet'⟩
      · exact Or.inl hl
      · exact Or.inr ⟨List.mem_cons_of_mem _ hin, hdet'⟩
    | some t0 =>
      simp only [resolvePhase, hdet] at hmem
      rcases ih (addToGroups acc t0 d) t ds d' hmem hd with ⟨ds0, hm0, hd0⟩ | ⟨hin, hdet'⟩
      · rcases mem_addToGroups_elim acc t0 d t ds0 d' hm0 hd0 with hacc | ⟨ht, hdd⟩
        · exact Or.inl hacc
        · subst ht
          subst hdd
          exact Or.inr ⟨List.mem_cons_self _ _, hdet⟩
      · exact Or.inr ⟨List.mem_cons_of_mem _ hin, hdet'⟩

/-- Every date that resolves to a tab ends up in that tab's group after the
resolution phase (and accumulated groups are never lost). -/
lemma resolvePhase_complete (env : Env) : ∀ (dates : List Date) (acc : List (String × List Date))
    (t : String) (d' : Date),
    ((∃ ds0, (t, ds0) ∈ acc ∧ d' ∈ ds0) ∨
      (d' ∈ dates ∧ (determine_sheet_for_date env d').1 = some t)) →
    ∃ ds, (t, ds) ∈ (resolvePhase env dates acc).1 ∧ d' ∈ ds := by
  intro dates
  induction dates with
  | nil =>
    intro acc t d' h
    rcases h with ⟨ds0, hmem, hd⟩ | ⟨hmem, _⟩
    · exact ⟨ds0, hmem, hd⟩
    · simp at hmem
  | cons d rest ih =>
    intro acc t d' h
    cases hdet : (determine_sheet_for_date env d).1 with
    | none =>
      simp only [resolvePhase, hdet]
      apply ih
      rcases h with hl | ⟨hmem, hdet'⟩
      · exact Or.inl hl
      · rcases List.mem_cons.mp hmem with rfl | hr
        · rw [hdet] at hdet'
          cases hdet'
        · exact Or.inr ⟨hr, hdet'⟩
    | some t0 =>
      simp only [resolvePhase, hdet]
      apply ih
      rcases h with ⟨ds0, hmem, hd⟩ | ⟨hmem, hdet'⟩
      · exact Or.inl (mem_addToGroups_mono acc t0 d t ds0 d' hmem hd)
      · rcases List.mem_cons.mp hmem with rfl | hr
        · rw [hdet] at hdet'
          have ht : t0 = t := Option.some.inj hdet'
          subst ht
          exact Or.inl (mem_addToGroups_self acc t0 d')
        · exact Or.inr ⟨hr, hdet'⟩

/-- Every entry produced by the extraction phase originates from a group whose
tab fetch succeeded and from a date of that group whose extraction scan found
a match. -/
lemma extractPhase_sound (env : Env) : ∀ (groups : List (String × List Date))
    (e : String × String × String), e ∈ (extractPhase env groups).1 →
    ∃ t ds g d pr, (t, ds) ∈ groups ∧ env.fetchTab t = Except.ok g ∧ d ∈ ds ∧
      extractGrid g (dateStr d) = some pr ∧ e = (dateKey d, pr.1, pr.2) := by
  intro groups
  induction groups with
  | nil => intro e he; simp [extractPhase] at he
  | cons p rest ih =>
    intro e he
    obtain ⟨t0, ds0⟩ := p
    simp only [extractPhase] at he
    rcases List.mem_append.mp he with hp | hr
    · unfold processGroup at hp
      cases hF : env.fetchTab t0 with
      | error err =>
        rw [hF] at hp
        simp at hp
      | ok g =>
        rw [hF] at hp
        simp only [List.mem_filterMap] at hp
        obtain ⟨d, hd, hmap⟩ := hp
        cases hE : extractGrid g (dateStr d) with
        | none =>
          rw [hE] at hmap
          cases hmap
        | some pr =>
          rw [hE] at hmap
          simp only [Option.map_some'] at hmap
          have he' : e = (dateKey d, pr.1, pr.2) := (Option.some.inj hmap).symm
          exact ⟨t0, ds0, g, d, pr, List.mem_cons_self _ _, hF, hd, hE, he'⟩
    · obtain ⟨t, ds, g, d, pr, hmem, hF, hd, hE, he'⟩ := ih e hr
      exact ⟨t, ds, g, d, pr, List.mem_cons_of_mem _ hmem, hF, hd, hE, he'⟩

/-- Every date of a group whose tab fetch succeeds and whose extraction scan
finds a match contributes its entry to the extraction phase's result. -/
lemma extractPhase_complete (env : Env) : ∀ (groups : List (String × List Date))
    (t : String) (ds : List Date) (g : Grid) (d : Date) (pr : String × String),
    (t, ds) ∈ groups → env.fetchTab t = Except.ok g → d ∈ ds →
    extractGrid g (dateStr d) = some pr →
    (dateKey d, pr.1, pr.2) ∈ (extractPhase env groups).1 := by
  intro groups
  induction groups with
  | nil => intro t ds g d pr hmem; simp at hmem
  | cons p rest ih =>
    intro t ds g d pr hmem hF hd hE
    obtain ⟨t0, ds0⟩ := p
    simp only [extractPhase]
    rcases List.mem_cons.mp hmem with heq | hrest
    · apply List.mem_append_left
      have h1 : t = t0 := congrArg Prod.fst heq
      have h2 : ds = ds0 := congrArg Prod.snd heq
      subst h1
      subst h2
      unfold processGroup
      rw [hF]
      simp only [List.mem_filterMap]
      refine ⟨d, hd, ?_⟩
      rw [hE]
      rfl
    · exact List.mem_append_right _ (ih t ds g d pr hrest hF hd hE)

/-- On a successful setup the batch result is the extraction phase's result
over the resolution phase's groups. -/
lemma get_menus_ok (env : Env) (dates : List Date) (hs : env.setup = Setup.ok) :
    (get_menus_for_dates env dates).1 = (extractPhase env (resolvePhase env dates []).1).1 := by
  unfold get_menus_for_dates
  rw [hs]
  rfl

/-- A group whose tab fetch errors contributes nothing to the extraction
phase's result: removing it leaves the entries of all other groups unchanged. -/
lemma extractPhase_skip_error (env : Env) (t : String) (ds : List Date) (e : String)
    (hF : env.fetchTab t = Except.error e) :
    ∀ (gs1 gs2 : List (String × List Date)),
      (extractPhase env (gs1 ++ (t, ds) :: gs2)).1 = (extractPhase env (gs1 ++ gs2)).1 := by
  intro gs1
  induction gs1 with
  | nil =>
    intro gs2
    simp only [List.nil_append, extractPhase]
    unfold processGroup
    rw [hF]
    simp
  | cons p rest ih =>
    intro gs2
    obtain ⟨ta, dsa⟩ := p
    simp only [List.cons_append, extractPhase, List.append_eq]
    rw [ih]

/-! ## Claim theorems -/

/-- C4: for every valid target date the tab candidate selector deterministically
produces an ordered sequence of 1 to 3 tab names; the target month's tab is
always included; when the day is at most 7 the previous month's tab is placed
immediately before the target month's tab (and nothing else is listed); a day-5
March date yields exactly the sequence Fevrier, Mars; and the resolver probes
the candidates in exactly this order, accepting the first successful probe. -/
theorem C4_candidate_selector (y m dd : Nat) (h1 : 1 ≤ m) (h2 : m ≤ 12)
    (h3 : 1 ≤ dd) (h4 : dd ≤ daysInMonth y m) :
    (1 ≤ (candidates ⟨y, m, dd⟩).length ∧ (candidates ⟨y, m, dd⟩).length ≤ 3) ∧
    (month_names m).getD ("") ∈ candidates ⟨y, m, dd⟩ ∧
    (dd ≤ 7 → candidates ⟨y, m, dd⟩ =
      [(month_names (if 1 < m then m - 1 else 12)).getD (""), (month_names m).getD ("")]) ∧
    (m = 3 → dd = 5 → candidates ⟨y, m, dd⟩ = ["Fevrier", "Mars"]) ∧
    (∀ env : Env, (determine_sheet_for_date env ⟨y, m, dd⟩).1 =
      ((months_to_check ⟨y, m, dd⟩).find? (probeOk env ⟨y, m, dd⟩)).map
        (fun k => (month_names k).getD (""))) := by
  refine ⟨?_, ?_, ?_, ?_, ?_⟩
  · have h := months_length ⟨y, m, dd⟩
    simpa [candidates] using h
  · exact List.mem_map.mpr ⟨m, target_mem_months _, rfl⟩
  · intro h7
    rw [candidates, months_early ⟨y, m, dd⟩ h7]
    rfl
  · intro hm3 hd5
    subst hm3
    subst hd5
    rw [candidates, months_early ⟨y, 3, 5⟩ (by show (5 : Nat) ≤ 7; omega)]
    rfl
  · intro env
    exact probe_eq_find env _ _

/-- C4 witness: at the concrete date 5 March 2025 the hypotheses hold and the
candidate list is exactly Fevrier then Mars. -/
theorem C4_witness : candidates ⟨2025, 3, 5⟩ = ["Fevrier", "Mars"] :=
  (C4_candidate_selector 2025 3 5 (by decide) (by decide) (by decide)
    (by decide)).2.2.2.1 rfl rfl

/-- C7: the month-number-to-tab-name mapping is total and injective over months
1 to 12, and candidate selection wraps at the year boundary: a December date in
the fixed 31-day end-of-month window gets the month-1 tab Janvier appended, and
a January date with day at most 7 gets the month-12 tab Decembre prepended. -/
theorem C7_month_mapping :
    (∀ m ∈ Finset.Icc 1 12, (month_names m).isSome = true) ∧
    (∀ m ∈ Finset.Icc 1 12, ∀ m' ∈ Finset.Icc 1 12, month_names m = month_names m' → m = m') ∧
    (∀ y dd : Nat, 24 ≤ dd → dd ≤ 31 →
      months_to_check ⟨y, 12, dd⟩ = [12, 1] ∧ candidates ⟨y, 12, dd⟩ = ["Decembre", "Janvier"]) ∧
    (∀ y dd : Nat, 1 ≤ dd → dd ≤ 7 →
      months_to_check ⟨y, 1, dd⟩ = [12, 1] ∧ candidates ⟨y, 1, dd⟩ = ["Decembre", "Janvier"]) := by
  refine ⟨by decide, by decide, ?_, ?_⟩
  · intro y dd h24 h31
    have hm : months_to_check ⟨y, 12, dd⟩ = [12, 1] := by
      simp only [months_to_check]
      norm_num
      rw [if_neg (by omega : ¬ dd ≤ 7), if_pos (by omega : 31 - 7 ≤ dd)]
      rfl
    exact ⟨hm, by rw [candidates, hm]; rfl⟩
  · intro y dd h1 h7
    have hm : months_to_check ⟨y, 1, dd⟩ = [12, 1] := by
      have h31 : daysInMonth y 1 = 31 := by simp [daysInMonth]
      simp only [months_to_check]
      norm_num
      rw [if_pos h7, h31, if_neg (by omega : ¬ (31 : Nat) ≤ dd + 7)]
    exact ⟨hm, by rw [candidates, hm]; rfl⟩

/-- C7 witness: at concrete dates the hypotheses hold: December 28 probes
Decembre then Janvier, and January 3 probes Decembre then Janvier. -/
theorem C7_witness :
    candidates ⟨2025, 12, 28⟩ = ["Decembre", "Janvier"] ∧
    candidates ⟨2026, 1, 3⟩ = ["Decembre", "Janvier"] :=
  ⟨(C7_month_mapping.2.2.1 2025 28 (by decide) (by decide)).2,
   (C7_month_mapping.2.2.2 2026 3 (by decide) (by decide)).2⟩

/-- C6: for every date the tab resolver probes the candidate tabs in order,
silently skipping a candidate whose tab does not exist or whose fetch errors,
and returns the first candidate tab whose grid contains a cell with a trailing
token equal to the date's rendering; when every candidate is exhausted without
a match the result is the value none, not an exception (the embedding is a
total function whose value is the first successful probe under `List.find?`). -/
theorem C6_resolver_error_handling (env : Env) (d : Date) :
    (determine_sheet_for_date env d).1 =
      ((months_to_check d).find? (probeOk env d)).map (fun m => (month_names m).getD ("")) :=
  probe_eq_find env d (months_to_check d)

/-- C5: when the extraction scan stops at row i and column c, that position is
a genuine match (a header-candidate row, a column past column 0, a cell whose
last token equals the key) and every other match position lies in a later row
or in the same row at the same or a later column: the extracted entry comes
from the topmost, leftmost matching cell in reading order. -/
theorem C5_reading_order (g : Grid) (key : String) (i c : Nat)
    (h : findMatch g key = some (i, c)) :
    matchPos g key i c ∧ ∀ i' c', matchPos g key i' c' → i < i' ∨ (i = i' ∧ c ≤ c') :=
  ⟨findMatch_sound g key i c h, findMatch_min g key i c h⟩

/-- C5 witness: on a concrete grid the scan stops at row 0, column 1, which is
a match position. -/
theorem C5_witness :
    matchPos [["", "lundi 30/06", "mardi 01/07"], ["Midi", "Pates", "Riz"]] ("30/06") 0 1 :=
  (C5_reading_order [["", "lundi 30/06", "mardi 01/07"], ["Midi", "Pates", "Riz"]]
    ("30/06") 0 1 (by decide)).1

/-- C8: on the scenario grid, extraction for a date rendered 30/06 returns
lunch Pates and dinner Soupe, and extraction for a date rendered 01/07 returns
lunch Riz and dinner Salade. -/
theorem C8_scenario_grid :
    extractGrid [["", "lundi 30/06", "mardi 01/07"], ["Midi", "Pates", "Riz"],
        ["Soir", "Soupe", "Salade"]] (dateStr ⟨2025, 6, 30⟩) = some ("Pates", "Soupe") ∧
    extractGrid [["", "lundi 30/06", "mardi 01/07"], ["Midi", "Pates", "Riz"],
        ["Soir", "Soupe", "Salade"]] (dateStr ⟨2025, 7, 1⟩) = some ("Riz", "Salade") :=
  ⟨by decide, by decide⟩

/-- C9: when the scan matches at row i and column c, the entry is created with
the lunch text taken from row i+1 at column c exactly when that row exists, is
longer than c and its first cell trimmed and lowercased equals midi, and the
dinner text independently from row i+2 under the analogous soir check;
whenever either offset row is missing or its label mismatches the
corresponding field is the empty string, and a matched date with no following
rows yields an entry with both fields empty, never an error. -/
theorem C9_label_rows (g : Grid) (key : String) (i c : Nat)
    (h : findMatch g key = some (i, c)) :
    extractGrid g key = some (labelSpec g (i + 1) c ("midi"), labelSpec g (i + 2) c ("soir")) ∧
    (g.length ≤ i + 1 → extractGrid g key = some ("", "")) := by
  constructor
  · simp only [extractGrid, h]
    rw [labelText_eq_labelSpec, labelText_eq_labelSpec]
  · intro hlen
    simp only [extractGrid, h]
    unfold labelText
    rw [if_neg (by omega : ¬ i + 1 < g.length), if_neg (by omega : ¬ i + 2 < g.length)]

/-- C9 witness: a grid whose only row holds the matched date cell yields an
entry with two empty fields. -/
theorem C9_witness : extractGrid [["", "lundi 30/06"]] ("30/06") = some ("", "") :=
  (C9_label_rows [["", "lundi 30/06"]] ("30/06") 0 1 (by decide)).2 (by decide)

/-- C10: the resolver's existence check is strictly more permissive than the
extraction scan: whenever the scan produces an entry the existence check
accepts the grid, but a grid whose only matching date cell sits in column 0,
or in a row whose first cell is non-blank, passes the existence check while
the scan finds nothing, so a date can resolve to a tab yet get no menu entry. -/
theorem C10_existence_vs_extraction :
    (∀ (g : Grid) (key : String) (p : String × String),
      extractGrid g key = some p → dateExistsGrid g key = true) ∧
    (dateExistsGrid [["lundi 30/06"]] ("30/06") = true ∧
      extractGrid [["lundi 30/06"]] ("30/06") = none) ∧
    (dateExistsGrid [["x", "lundi 30/06"]] ("30/06") = true ∧
      extractGrid [["x", "lundi 30/06"]] ("30/06") = none) := by
  refine ⟨?_, by decide, by decide⟩
  intro g key p h
  unfold extractGrid at h
  cases hm : findMatch g key with
  | none =>
    rw [hm] at h
    cases h
  | some ic =>
    obtain ⟨i, c⟩ := ic
    exact matchPos_dateExists g key i c (findMatch_sound g key i c hm)

/-- C10 witness: a concrete grid whose extraction succeeds also passes the
existence check. -/
theorem C10_witness :
    dateExistsGrid [["", "lundi 30/06"], ["Midi", "Pates"]] ("30/06") = true :=
  C10_existence_vs_extraction.1 [["", "lundi 30/06"], ["Midi", "Pates"]] ("30/06")
    ("Pates", "") (by decide)

/-- C2 counterexample: the date 10 March resolves to the Mars tab (it forms a
group in the resolution phase), yet the batch result is empty: there is no
entry at all under its key, where the claim requires an entry with two empty
string fields. -/
theorem C2_counterexample :
    (resolvePhase envC2 [⟨2025, 3, 10⟩] []).1 = [("Mars", [⟨2025, 3, 10⟩])] ∧
    (get_menus_for_dates envC2 [⟨2025, 3, 10⟩]).1 = [] :=
  ⟨by decide, by decide⟩

/-- C2 (amended): the extraction is a total function that never fails and a
matched date always receives a lunch/dinner pair, but when the grid has zero
rows or no cell matches the target date (no match position at all) the
extraction produces no entry — the date is left absent from the batch result,
not present with two empty strings. -/
theorem C2_no_match_means_absent (g : Grid) (key : String)
    (h : ∀ i c, ¬ matchPos g key i c) : extractGrid g key = none := by
  unfold extractGrid
  cases hm : findMatch g key with
  | none => rfl
  | some ic =>
    obtain ⟨i, c⟩ := ic
    exact absurd (findMatch_sound g key i c hm) (h i c)

/-- C2 witness: the empty grid has no match position and extraction on it
yields no entry. -/
theorem C2_witness : extractGrid [] ("30/06") = none :=
  C2_no_match_means_absent [] ("30/06") (fun i c hpos => absurd hpos.1 (by simp))

/-- C1 counterexample: two dates that both resolve to the Mars tab trigger
three `get_all_values` fetches of that tab over the whole run — one existence
probe per date during resolution plus one extraction fetch — not exactly one
as the claim states. -/
theorem C1_counterexample :
    fetchCount (get_menus_for_dates envC1 [⟨2025, 3, 10⟩, ⟨2025, 3, 11⟩]).2 ("Mars") = 3 := by
  decide

/-- C1 (amended): the deduplication holds within the extraction phase: every
tab appearing as a group key after resolution is fetched exactly once by the
extraction phase no matter how many dates mapped to it; the resolution phase
additionally performs one probe fetch per date that probes the tab. -/
theorem C1_extraction_fetches_once (env : Env) (dates : List Date) (t : String)
    (h : t ∈ ((resolvePhase env dates []).1).map Prod.fst) :
    fetchCount (extractPhase env (resolvePhase env dates []).1).2 t = 1 := by
  rw [fetchCount_extractPhase env _ t (nodup_keys_resolve env dates [] (by simp))]
  rw [if_pos h]

/-- C1 witness: in the concrete two-date run the Mars tab is fetched exactly
once by the extraction phase. -/
theorem C1_witness :
    fetchCount (extractPhase envC1 (resolvePhase envC1 [⟨2025, 3, 10⟩, ⟨2025, 3, 11⟩] []).1).2
      ("Mars") = 1 :=
  C1_extraction_fetches_once envC1 [⟨2025, 3, 10⟩, ⟨2025, 3, 11⟩] ("Mars") (by decide)

/-- C3: the batch resolver never raises for partial failures and reports a
setup-time authentication failure once: (a) an authentication error makes the
whole batch return no entries with exactly one printed error report carrying
the exception's message; (b) every entry of the batch result comes from a date
that resolved to a tab whose grid fetch succeeded, so dates of erroring tabs
are absent; (c) a group whose tab fetch errors is skipped without affecting
the entries of the other groups; (d) a date that resolves to a tab whose
fetch succeeds and whose scan matches does get its entry, so an erroring tab
only leaves its own dates absent. -/
theorem C3_failure_semantics (env : Env) (dates : List Date) :
    (∀ msg, env.setup = Setup.authErr msg →
      get_menus_for_dates env dates =
        ([], [Ev.errPrint ("❌ Erreur connexion Google Sheets: " ++ msg)])) ∧
    (∀ e : String × String × String, env.setup = Setup.ok →
      e ∈ (get_menus_for_dates env dates).1 →
      ∃ d t g, d ∈ dates ∧ dateKey d = e.1 ∧
        (determine_sheet_for_date env d).1 = some t ∧ env.fetchTab t = Except.ok g) ∧
    (∀ (gs1 gs2 : List (String × List Date)) (t : String) (ds : List Date) (er : String),
      env.fetchTab t = Except.error er →
      (extractPhase env (gs1 ++ (t, ds) :: gs2)).1 = (extractPhase env (gs1 ++ gs2)).1) ∧
    (∀ (d : Date) (t : String) (g : Grid) (pr : String × String), env.setup = Setup.ok →
      d ∈ dates → (determine_sheet_for_date env d).1 = some t →
      env.fetchTab t = Except.ok g → extractGrid g (dateStr d) = some pr →
      (dateKey d, pr.1, pr.2) ∈ (get_menus_for_dates env dates).1) := by
  refine ⟨?_, ?_, ?_, ?_⟩
  · intro msg hs
    unfold get_menus_for_dates
    rw [hs]
    rfl
  · intro e hs he
    rw [get_menus_ok env dates hs] at he
    obtain ⟨t, ds, g, d, pr, hgr, hF, hd, hE, he'⟩ := extractPhase_sound env _ e he
    rcases resolvePhase_sound env dates [] t ds d hgr hd with ⟨ds0, h0, -⟩ | ⟨hin, hdet⟩
    · simp at h0
    · refine ⟨d, t, g, hin, ?_, hdet, hF⟩
      rw [he']
  · intro gs1 gs2 t ds er hF
    exact extractPhase_skip_error env t ds er hF gs1 gs2
  · intro d t g pr hs hd hdet hF hE
    rw [get_menus_ok env dates hs]
    obtain ⟨ds, hgr, hdds⟩ := resolvePhase_complete env dates [] t d (Or.inr ⟨hd, hdet⟩)
    exact extractPhase_complete env _ t ds g d pr hgr hF hdds hE

/-- C3 witness: a concrete failed authentication yields an empty batch and a
single printed error report with the exception's message. -/
theorem C3_witness :
    get_menus_for_dates envAuth [⟨2025, 3, 10⟩] =
      ([], [Ev.errPrint ("❌ Erreur connexion Google Sheets: " ++ "invalid_grant")]) :=
  (C3_failure_semantics envAuth [⟨2025, 3, 10⟩]).1 ("invalid_grant") rfl

end MenuSpec
